import Mathlib

/-!
Verification of the Protocall real-time multimodal session engine.

The definitions below are a shallow embedding of the session component of the
repository.  The component exists in two source variants:
`src/components/InterviewSession.tsx` (the "components" variant) and
`src/unnamed/part_001` (the "alt" variant).  The two variants share all of the
modelled logic except the interruption branch of the inbound message handler,
which in the alt variant additionally clears the agent's accumulating
transcription buffer.  Times (the output audio clock and decoded buffer
durations) are modelled as rationals.
-/

namespace Protocall

/-- Helper for the model of JavaScript string trimming: drops leading
whitespace characters from a character list. -/
def dropWs : List Char → List Char
  | [] => []
  | c :: cs => if c.isWhitespace then dropWs cs else c :: cs

/-- Model of JavaScript `String.prototype.trim`: removes whitespace from both
ends of the string. -/
def jsTrim (s : String) : String :=
  String.mk ((dropWs ((dropWs s.data).reverse)).reverse)

/-- Model of JavaScript `String.prototype.padStart(target, c)`: left-pads the
string with `c` until it has length `target` (no truncation). -/
def padStart (s : String) (target : Nat) (c : Char) : String :=
  String.mk (List.replicate (target - s.length) c) ++ s

/-- Speaker role of a finalized transcript entry, from `types.ts`
(`role: 'user' | 'interviewer'`). -/
inductive Role
  | user
  | interviewer
deriving DecidableEq, Repr

/-- One finalized conversation turn, from `types.ts` (`TranscriptionTurn`). -/
structure TranscriptionTurn where
  role : Role
  text : String
deriving DecidableEq, Repr

/-- One decoded audio buffer scheduled on the output context: its scheduled
start time and its decoded duration (both in seconds, as rationals).  This is
the model of an `AudioBufferSourceNode` held in `sourcesRef`. -/
structure PlaybackUnit where
  start : ℚ
  duration : ℚ
deriving DecidableEq

/-- One function call carried by an inbound `toolCall` message: its declared
name, its invocation id and the (unvalidated) payload fields the code reads
from `fc.args`. -/
structure FunctionCall where
  name : String
  id : String
  cue : String
  sentiment : String
deriving DecidableEq, Repr

/-- One tool acknowledgement sent via `sendToolResponse`: the invocation id it
correlates with and the echoed tool name (the `response` field is the constant
`{result: "ok"}` in the source, so it is not modelled). -/
structure ToolAck where
  id : String
  name : String
deriving DecidableEq, Repr

/-- The ephemeral UI advisory published by `setVisualFeedback`. -/
structure VisualCue where
  cue : String
  sentiment : String
deriving DecidableEq, Repr

/-- Model of one inbound `LiveServerMessage` restricted to the fields the
`onmessage` handler reads.  `audioChunk` carries the decoded duration of the
inline audio data when present (`decodeAudioData` lives in
`services/audioUtils`, which is not under `src/`; per the spec it decodes the
chunk into a playable buffer, and only the buffer's duration matters to the
scheduling logic). -/
structure LiveMsg where
  toolCalls : List FunctionCall
  outputTranscription : Option String
  inputTranscription : Option String
  turnComplete : Bool
  audioChunk : Option ℚ
  interrupted : Bool

/-- The mutable state of the session component: the refs and React state that
the modelled handlers read and write.  `sessionOpen` and `audioCtxOpen` model
whether `sessionRef.current` and `audioContextRef.current` are non-null;
`frameInterval`, `timerInterval` and `feedbackTimeout` hold the pending timer
ids; `nextTimerId` supplies fresh timer ids. -/
structure SessionState where
  sessionOpen : Bool
  audioCtxOpen : Bool
  frameInterval : Option Nat
  timerInterval : Option Nat
  feedbackTimeout : Option Nat
  nextTimerId : Nat
  transcriptionUser : String
  transcriptionModel : String
  currentTranscript : List TranscriptionTurn
  nextStartTime : ℚ
  sources : List PlaybackUnit
  visualFeedback : Option VisualCue
  secondsElapsed : Nat
  isReady : Bool
  isListening : Bool
deriving DecidableEq

/-- The state of the component at mount: every ref null, every buffer empty. -/
def initialState : SessionState where
  sessionOpen := false
  audioCtxOpen := false
  frameInterval := none
  timerInterval := none
  feedbackTimeout := none
  nextTimerId := 0
  transcriptionUser := ""
  transcriptionModel := ""
  currentTranscript := []
  nextStartTime := 0
  sources := []
  visualFeedback := none
  secondsElapsed := 0
  isReady := false
  isListening := false

/-- Handler for one entry of `msg.toolCall.functionCalls` (both variants):
when the name matches the single declared tool `updateVisualFeedback`, the
visual cue is published, the pending cue-expiry timeout is superseded by a
fresh one, and exactly one acknowledgement carrying the invocation id is sent;
any other name is ignored entirely (no cue, no acknowledgement). -/
def processFunctionCall (s : SessionState) (fc : FunctionCall) :
    SessionState × List ToolAck :=
  if fc.name = "updateVisualFeedback" then
    ({ s with visualFeedback := some ⟨fc.cue, fc.sentiment⟩,
              feedbackTimeout := some s.nextTimerId,
              nextTimerId := s.nextTimerId + 1 },
     [⟨fc.id, fc.name⟩])
  else (s, [])

/-- The `for (const fc of msg.toolCall.functionCalls)` loop: processes the
calls in order, concatenating the acknowledgements they send. -/
def processToolCalls (s : SessionState) : List FunctionCall → SessionState × List ToolAck
  | [] => (s, [])
  | fc :: rest =>
    let p := processFunctionCall s fc
    let q := processToolCalls p.1 rest
    (q.1, p.2 ++ q.2)

/-- The transcription branch of `onmessage` (identical in both variants): an
`outputTranscription` delta is appended to the agent buffer, `else if` an
`inputTranscription` delta is present it is appended to the user buffer — the
two kinds are tested in an exclusive order, so a message carrying both loses
its user delta. -/
def processTranscription (m : LiveMsg) (s : SessionState) : SessionState :=
  match m.outputTranscription with
  | some t => { s with transcriptionModel := s.transcriptionModel ++ t }
  | none =>
    match m.inputTranscription with
    | some t => { s with transcriptionUser := s.transcriptionUser ++ t }
    | none => s

/-- The `turnComplete` branch of `onmessage` (identical in both variants):
trims both accumulating buffers, appends the non-empty results to the turn
history (user first, then agent), then clears both buffers. -/
def onTurnComplete (s : SessionState) : SessionState :=
  let userTurn := jsTrim s.transcriptionUser
  let modelTurn := jsTrim s.transcriptionModel
  let hist :=
    if userTurn = "" ∧ modelTurn = "" then s.currentTranscript
    else
      s.currentTranscript
        ++ (if userTurn = "" then [] else [⟨Role.user, userTurn⟩])
        ++ (if modelTurn = "" then [] else [⟨Role.interviewer, modelTurn⟩])
  { s with currentTranscript := hist,
           transcriptionUser := "", transcriptionModel := "" }

/-- The audio branch of `onmessage` (identical in both variants): the start
cursor is first clamped to the current output clock
(`nextStartTimeRef.current = Math.max(nextStartTimeRef.current,
ctx.currentTime)`), the decoded buffer is scheduled to start at the cursor,
the cursor is advanced by the buffer's duration, and the scheduled unit joins
the live set.  Returns the updated state and the scheduled start time. -/
def enqueueAudio (clock dur : ℚ) (s : SessionState) : SessionState × ℚ :=
  let t := max s.nextStartTime clock
  ({ s with nextStartTime := t + dur,
            sources := s.sources ++ [⟨t, dur⟩] }, t)

/-- The shared portion of the `interrupted` branch: every live source is
stopped, the live set is cleared, and the start cursor is reset to `0`.
Returns the updated state and the list of units that were stopped. -/
def cancelAll (s : SessionState) : SessionState × List PlaybackUnit :=
  ({ s with sources := [], nextStartTime := 0 }, s.sources)

/-- The `interrupted` branch of the components variant
(`src/components/InterviewSession.tsx`, lines 241-245): it only cancels
playback; neither transcription buffer is touched. -/
def onInterrupted (s : SessionState) : SessionState × List PlaybackUnit :=
  cancelAll s

/-- The `interrupted` branch of the alt variant (`src/unnamed/part_001`,
lines 259-265): cancels playback and additionally clears the agent's
accumulating transcription buffer; the user buffer is untouched. -/
def onInterruptedAlt (s : SessionState) : SessionState × List PlaybackUnit :=
  let p := cancelAll s
  ({ p.1 with transcriptionModel := "" }, p.2)

/-- The `onmessage` handler of the components variant: after the early return
when the audio contexts are gone, it processes in order the tool calls, the
transcription delta, the turn boundary, the inline audio chunk and the
interruption flag.  `clock` is the output context's `currentTime` when the
message is processed.  Returns the new state and the acknowledgements sent. -/
def onmessage (clock : ℚ) (m : LiveMsg) (s : SessionState) :
    SessionState × List ToolAck :=
  if s.audioCtxOpen = false then (s, [])
  else
    let p := processToolCalls s m.toolCalls
    let s2 := processTranscription m p.1
    let s3 := if m.turnComplete then onTurnComplete s2 else s2
    let s4 := match m.audioChunk with
              | some d => (enqueueAudio clock d s3).1
              | none => s3
    let s5 := if m.interrupted then (onInterrupted s4).1 else s4
    (s5, p.2)

/-- The `onmessage` handler of the alt variant: identical to `onmessage`
except that its interruption branch also clears the agent buffer. -/
def onmessageAlt (clock : ℚ) (m : LiveMsg) (s : SessionState) :
    SessionState × List ToolAck :=
  if s.audioCtxOpen = false then (s, [])
  else
    let p := processToolCalls s m.toolCalls
    let s2 := processTranscription m p.1
    let s3 := if m.turnComplete then onTurnComplete s2 else s2
    let s4 := match m.audioChunk with
              | some d => (enqueueAudio clock d s3).1
              | none => s3
    let s5 := if m.interrupted then (onInterruptedAlt s4).1 else s4
    (s5, p.2)

/-- Processes a list of inbound messages in arrival order, all at the given
output-clock reading. -/
def runMsgs (clock : ℚ) (s : SessionState) : List LiveMsg → SessionState
  | [] => s
  | m :: rest => runMsgs clock (onmessage clock m s).1 rest

/-- Runs the audio branch over a sequence of arriving chunks, each given as a
pair of the output-clock reading at its arrival and its decoded duration;
returns the emitted playback units as (scheduled start, duration) pairs in
schedule order. -/
def runSchedule (s : SessionState) : List (ℚ × ℚ) → List (ℚ × ℚ)
  | [] => []
  | c :: rest =>
    let p := enqueueAudio c.1 c.2 s
    (p.2, c.2) :: runSchedule p.1 rest

/-- One observable release action performed by `cleanup`. -/
inductive CleanupAction
  | closeSession
  | closeInputCtx
  | closeOutputCtx
  | clearFrameInterval (id : Nat)
  | clearTimerInterval (id : Nat)
  | clearFeedbackTimeout (id : Nat)
  | stopSource (u : PlaybackUnit)
deriving DecidableEq

/-- The `cleanup` teardown (both variants): closes the session handle and both
audio contexts when present (nulling their refs), clears the frame and elapsed
timers when present (nulling their refs), clears the pending cue-expiry
timeout when its ref is non-null — the source does NOT null
`feedbackTimeoutRef.current` here — stops and clears all live sources, and
resets the start cursor and the readiness flags.  Returns the new state and
the list of release actions performed, in source order. -/
def cleanup (s : SessionState) : SessionState × List CleanupAction :=
  let a1 := if s.sessionOpen then [CleanupAction.closeSession] else []
  let a2 := if s.audioCtxOpen then
      [CleanupAction.closeInputCtx, CleanupAction.closeOutputCtx] else []
  let a3 := match s.frameInterval with
            | some i => [CleanupAction.clearFrameInterval i]
            | none => []
  let a4 := match s.timerInterval with
            | some i => [CleanupAction.clearTimerInterval i]
            | none => []
  let a5 := match s.feedbackTimeout with
            | some i => [CleanupAction.clearFeedbackTimeout i]
            | none => []
  let a6 := s.sources.map CleanupAction.stopSource
  ({ s with sessionOpen := false,
            audioCtxOpen := false,
            frameInterval := none,
            timerInterval := none,
            sources := [],
            nextStartTime := 0,
            isReady := false,
            isListening := false },
   a1 ++ a2 ++ a3 ++ a4 ++ a5 ++ a6)

/-- The `handleFinish` result: the accumulated turn history paired with the
formatted elapsed duration handed to `onComplete`. -/
def formatTime (totalSeconds : Nat) : String :=
  let mins := totalSeconds / 60
  let secs := totalSeconds % 60
  padStart (Nat.repr mins) 2 '0' ++ ":" ++ padStart (Nat.repr secs) 2 '0'

/-- Model of `handleFinish`: returns `(currentTranscript,
formatTime(secondsElapsed))`. -/
def handleFinish (s : SessionState) : List TranscriptionTurn × String :=
  (s.currentTranscript, formatTime s.secondsElapsed)

/-- The inputs the periodic frame-capture tick inspects: whether the video
element, the hidden canvas, the session handle and the canvas 2d context are
available, the current video width, and — for stating the claim about
in-flight frames — the number of previously captured frames whose
compression/send has not yet completed. -/
structure CaptureEnv where
  videoPresent : Bool
  canvasPresent : Bool
  sessionPresent : Bool
  canvasCtxPresent : Bool
  videoWidth : Nat
  framesInFlight : Nat
deriving DecidableEq

/-- The guard of the frame-capture tick in the components variant
(`src/components/InterviewSession.tsx`, lines 165-186): a frame is captured
and its compression/send started exactly when the video, canvas and session
refs and the 2d context are all present.  No field tracking in-flight frames
exists in the source, so the decision reads nothing else. -/
def frameTickCaptures (e : CaptureEnv) : Bool :=
  e.videoPresent && e.canvasPresent && e.sessionPresent && e.canvasCtxPresent

/-- The guard of the frame-capture tick in the alt variant
(`src/unnamed/part_001`, lines 185-204): additionally requires a non-zero
`video.videoWidth`. -/
def frameTickCapturesAlt (e : CaptureEnv) : Bool :=
  e.videoPresent && e.canvasPresent && e.sessionPresent &&
    (e.canvasCtxPresent && decide (e.videoWidth ≠ 0))

/-- Modelled from the spec: `createPcmBlob` lives in `services/audioUtils`,
which is not under `src/`; spec section 4.2 says each block of raw microphone
samples is encoded into the transport's raw audio frame format (16-bit PCM in
the reference behavior), so the model maps each sample to a 16-bit integer. -/
def createPcmBlob (samples : List ℚ) : List ℤ :=
  samples.map (fun x => (x * 32768).floor)

/-- The `scriptProcessor.onaudioprocess` callback (both variants): when the
mute flag is set the captured block is dropped before encoding and nothing is
sent; otherwise the block is encoded and one outbound audio frame is
produced. -/
def onaudioprocess (muted : Bool) (samples : List ℚ) : Option (List ℤ) :=
  if muted then none else some (createPcmBlob samples)

/-! Claim C1: gapless, non-overlapping playback scheduling. -/

/-- The first unit emitted by `runSchedule`, when one exists, starts no
earlier than the start cursor the run began with. -/
lemma runSchedule_head_ge (s : SessionState) (chunks : List (ℚ × ℚ)) :
    ∀ u ∈ (runSchedule s chunks).head?, s.nextStartTime ≤ u.1 := by
  cases chunks with
  | nil => intro u hu; simp [runSchedule] at hu
  | cons c rest =>
    intro u hu
    simp only [runSchedule, List.head?_cons, Option.mem_def, Option.some_inj] at hu
    rw [← hu]
    exact le_max_left _ _

/-- Claim C1: for every prior scheduler state and every sequence of audio
chunks arriving at arbitrary output-clock times with non-negative decoded
durations, the emitted schedule has non-decreasing start times, and each
unit's start time is at least the previous unit's start time plus its
duration (no overlap of consecutive units). -/
theorem C1_schedule_gapless (s : SessionState) (chunks : List (ℚ × ℚ))
    (hd : ∀ p ∈ chunks, 0 ≤ p.2) :
    List.Chain' (fun a b : ℚ × ℚ => a.1 + a.2 ≤ b.1) (runSchedule s chunks) ∧
    List.Chain' (fun a b : ℚ × ℚ => a.1 ≤ b.1) (runSchedule s chunks) := by
  induction chunks generalizing s with
  | nil => exact ⟨List.chain'_nil, List.chain'_nil⟩
  | cons c rest ih =>
    have hd' : ∀ p ∈ rest, 0 ≤ p.2 := fun p hp => hd p (List.mem_cons_of_mem c hp)
    have hdc : 0 ≤ c.2 := hd c (List.mem_cons_self c rest)
    obtain ⟨ih1, ih2⟩ := ih (enqueueAudio c.1 c.2 s).1 hd'
    have hhead : ∀ u ∈ (runSchedule (enqueueAudio c.1 c.2 s).1 rest).head?,
        max s.nextStartTime c.1 + c.2 ≤ u.1 := by
      intro u hu
      have := runSchedule_head_ge (enqueueAudio c.1 c.2 s).1 rest u hu
      simpa [enqueueAudio] using this
    constructor
    · rw [runSchedule, List.chain'_cons']
      exact ⟨fun u hu => hhead u hu, ih1⟩
    · rw [runSchedule, List.chain'_cons']
      refine ⟨fun u hu => ?_, ih2⟩
      have h1 := hhead u hu
      have h2 : max s.nextStartTime c.1 ≤ max s.nextStartTime c.1 + c.2 :=
        le_add_of_nonneg_right hdc
      exact le_trans h2 h1

/-- Concrete chunk arrivals from the spec's scenario: durations of half a
second arriving at output clocks 0, 0.3 and 1.6 seconds. -/
def chunksScenario : List (ℚ × ℚ) := [(0, 1/2), (3/10, 1/2), (16/10, 1/2)]

/-- Witness for C1: the scenario chunks have non-negative durations and the
schedule they produce is gapless and non-overlapping. -/
theorem C1_schedule_gapless_witness :
    (∀ p ∈ chunksScenario, 0 ≤ p.2) ∧
    List.Chain' (fun a b : ℚ × ℚ => a.1 + a.2 ≤ b.1)
      (runSchedule initialState chunksScenario) := by
  have hd : ∀ p ∈ chunksScenario, 0 ≤ p.2 := by
    intro p hp
    simp only [chunksScenario, List.mem_cons, List.not_mem_nil, or_false] at hp
    rcases hp with h | h | h <;> rw [h] <;> norm_num
  exact ⟨hd, (C1_schedule_gapless initialState chunksScenario hd).1⟩

/-! Claim C7: muting drops blocks before encoding. -/

/-- Claim C7: while muted, every captured audio block is dropped and no
outbound audio frame is produced. -/
theorem C7_mute_drops (samples : List ℚ) :
    onaudioprocess true samples = none := rfl

/-! Claim C2: turn assembly at a turn boundary. -/

/-- One transcription delta tagged with its speaker. -/
inductive DeltaEvent
  | userDelta (text : String)
  | agentDelta (text : String)

/-- The inbound message carrying one transcription delta and nothing else. -/
def deltaMsg : DeltaEvent → LiveMsg
  | .userDelta t => ⟨[], none, some t, false, none, false⟩
  | .agentDelta t => ⟨[], some t, none, false, none, false⟩

/-- The inbound message carrying only a `turnComplete` flag. -/
def boundaryMsg : LiveMsg := ⟨[], none, none, true, none, false⟩

/-- Concatenation, in arrival order, of the user-speech deltas of a delta
sequence. -/
def userText : List DeltaEvent → String
  | [] => ""
  | .userDelta t :: rest => t ++ userText rest
  | .agentDelta _ :: rest => userText rest

/-- Concatenation, in arrival order, of the agent-speech deltas of a delta
sequence. -/
def agentText : List DeltaEvent → String
  | [] => ""
  | .userDelta _ :: rest => agentText rest
  | .agentDelta t :: rest => t ++ agentText rest

/-- Processing a concatenation of message lists is processing them in turn. -/
lemma runMsgs_append (clock : ℚ) (s : SessionState) (ms₁ ms₂ : List LiveMsg) :
    runMsgs clock s (ms₁ ++ ms₂) = runMsgs clock (runMsgs clock s ms₁) ms₂ := by
  induction ms₁ generalizing s with
  | nil => rfl
  | cons m rest ih =>
    simp only [List.cons_append, runMsgs]
    exact ih _

/-- Processing a sequence of pure transcription-delta messages appends each
speaker's deltas, in arrival order, to that speaker's accumulating buffer and
changes nothing else. -/
lemma runMsgs_deltas (clock : ℚ) (s : SessionState) (ds : List DeltaEvent)
    (hopen : s.audioCtxOpen = true) :
    runMsgs clock s (ds.map deltaMsg) =
      { s with transcriptionUser := s.transcriptionUser ++ userText ds,
               transcriptionModel := s.transcriptionModel ++ agentText ds } := by
  induction ds generalizing s with
  | nil => simp [runMsgs, userText, agentText]
  | cons d rest ih =>
    cases d with
    | userDelta t =>
      have hstep : (onmessage clock (deltaMsg (.userDelta t)) s).1 =
          { s with transcriptionUser := s.transcriptionUser ++ t } := by
        simp [onmessage, hopen, deltaMsg, processToolCalls, processTranscription]
      simp only [List.map_cons, runMsgs, hstep]
      rw [ih _ (by simp [hopen])]
      simp [userText, agentText, String.append_assoc]
    | agentDelta t =>
      have hstep : (onmessage clock (deltaMsg (.agentDelta t)) s).1 =
          { s with transcriptionModel := s.transcriptionModel ++ t } := by
        simp [onmessage, hopen, deltaMsg, processToolCalls, processTranscription]
      simp only [List.map_cons, runMsgs, hstep]
      rw [ih _ (by simp [hopen])]
      simp [userText, agentText, String.append_assoc]

/-- Claim C2: starting from cleared partial buffers, any interleaving of
transcription deltas followed by a turn boundary appends to the turn history
exactly the at-most-two entries built from the trimmed per-speaker
concatenations — the user's entry first, then the agent's, each included only
when its trimmed text is non-empty — and leaves both buffers cleared. -/
theorem C2_turn_boundary (clock : ℚ) (s : SessionState) (ds : List DeltaEvent)
    (hopen : s.audioCtxOpen = true)
    (hu : s.transcriptionUser = "") (hm : s.transcriptionModel = "") :
    (runMsgs clock s (ds.map deltaMsg ++ [boundaryMsg])).currentTranscript =
      s.currentTranscript
        ++ (if jsTrim (userText ds) = "" then []
            else [⟨Role.user, jsTrim (userText ds)⟩])
        ++ (if jsTrim (agentText ds) = "" then []
            else [⟨Role.interviewer, jsTrim (agentText ds)⟩]) ∧
    (runMsgs clock s (ds.map deltaMsg ++ [boundaryMsg])).transcriptionUser = "" ∧
    (runMsgs clock s (ds.map deltaMsg ++ [boundaryMsg])).transcriptionModel = "" := by
  rw [runMsgs_append, runMsgs_deltas clock s ds hopen]
  simp only [runMsgs, onmessage, hopen, hu, hm]
  simp only [Bool.true_eq_false, if_false, boundaryMsg, processToolCalls,
    processTranscription, onTurnComplete, if_true]
  refine ⟨?_, rfl, rfl⟩
  by_cases h1 : jsTrim ("" ++ userText ds) = "" <;>
    by_cases h2 : jsTrim ("" ++ agentText ds) = "" <;>
      simp_all [String.empty_append]

/-- Concrete session state with open audio contexts and empty buffers. -/
def exOpen : SessionState := { initialState with audioCtxOpen := true }

/-- Concrete deltas from the spec's scenario: two user deltas followed by a
boundary. -/
def exDeltas : List DeltaEvent := [.userDelta "Hello", .userDelta " world"]

/-- Witness for C2 at the spec's scenario: the hypotheses hold for `exOpen`
and processing the two user deltas then a boundary yields the claimed
history. -/
theorem C2_turn_boundary_witness :
    (exOpen.audioCtxOpen = true ∧ exOpen.transcriptionUser = "" ∧
      exOpen.transcriptionModel = "") ∧
    (runMsgs 0 exOpen (exDeltas.map deltaMsg ++ [boundaryMsg])).currentTranscript =
      exOpen.currentTranscript
        ++ (if jsTrim (userText exDeltas) = "" then []
            else [⟨Role.user, jsTrim (userText exDeltas)⟩])
        ++ (if jsTrim (agentText exDeltas) = "" then []
            else [⟨Role.interviewer, jsTrim (agentText exDeltas)⟩]) :=
  ⟨⟨rfl, rfl, rfl⟩, (C2_turn_boundary 0 exOpen exDeltas rfl rfl rfl).1⟩

/-! Claim C3: which partial buffers an interruption clears. -/

/-- The inbound message carrying only the `interrupted` flag. -/
def interruptMsg : LiveMsg := ⟨[], none, none, false, none, true⟩

/-- Concrete state with an in-progress user utterance and in-progress agent
speech. -/
def stateMidTurn : SessionState :=
  { exOpen with transcriptionUser := "so I think", transcriptionModel := "Let me" }

/-- Counterexample to C3 as stated: in the components variant
(`src/components/InterviewSession.tsx`), processing an interruption leaves
the agent's partial buffer untouched rather than clearing it — the claim's
required post-state (agent buffer empty) fails at this input. -/
theorem C3_interruption_counterexample :
    (onmessage 0 interruptMsg stateMidTurn).1.transcriptionUser = "so I think" ∧
    (onmessage 0 interruptMsg stateMidTurn).1.transcriptionModel = "Let me" ∧
    (onmessage 0 interruptMsg stateMidTurn).1.transcriptionModel ≠ "" := by
  refine ⟨rfl, rfl, ?_⟩
  intro h
  simp [onmessage, interruptMsg, stateMidTurn, exOpen, initialState,
    processToolCalls, processTranscription, onInterrupted, cancelAll] at h

/-- Claim C3 amended: in the alt variant (`src/unnamed/part_001`) an
interruption clears exactly the agent's partial buffer and preserves the
user's; in the components variant (`src/components/InterviewSession.tsx`) an
interruption preserves both partial buffers — in neither variant is the
user's in-progress utterance discarded. -/
theorem C3_interruption_amended (clock : ℚ) (s : SessionState)
    (hopen : s.audioCtxOpen = true) :
    (onmessageAlt clock interruptMsg s).1.transcriptionUser = s.transcriptionUser ∧
    (onmessageAlt clock interruptMsg s).1.transcriptionModel = "" ∧
    (onmessage clock interruptMsg s).1.transcriptionUser = s.transcriptionUser ∧
    (onmessage clock interruptMsg s).1.transcriptionModel = s.transcriptionModel := by
  refine ⟨?_, ?_, ?_, ?_⟩ <;>
    simp [onmessage, onmessageAlt, hopen, interruptMsg, processToolCalls,
      processTranscription, onInterrupted, onInterruptedAlt, cancelAll]

/-- Witness for the amended C3 at the concrete mid-turn state. -/
theorem C3_interruption_witness :
    stateMidTurn.audioCtxOpen = true ∧
    (onmessageAlt 0 interruptMsg stateMidTurn).1.transcriptionUser =
      stateMidTurn.transcriptionUser ∧
    (onmessageAlt 0 interruptMsg stateMidTurn).1.transcriptionModel = "" :=
  ⟨rfl, (C3_interruption_amended 0 stateMidTurn rfl).1,
    (C3_interruption_amended 0 stateMidTurn rfl).2.1⟩

/-! Claim C4: the cancellation path and the start cursor. -/

/-- Concrete pre-interruption state: one live unit and a start cursor pointing
ten seconds into the future. -/
def stateScheduled : SessionState :=
  { exOpen with nextStartTime := 10, sources := [⟨2, 3⟩] }

/-- Counterexample to C4 as stated: processing an interruption while the
output clock reads 5 empties the live set but resets the start cursor to `0`,
not to the current output clock value 5 that the claim requires. -/
theorem C4_cancel_counterexample :
    (onmessage 5 interruptMsg stateScheduled).1.sources = [] ∧
    (onmessage 5 interruptMsg stateScheduled).1.nextStartTime = 0 ∧
    (onmessage 5 interruptMsg stateScheduled).1.nextStartTime ≠ 5 := by
  refine ⟨rfl, rfl, ?_⟩
  have h : (onmessage 5 interruptMsg stateScheduled).1.nextStartTime = 0 := rfl
  rw [h]
  norm_num

/-- Claim C4 amended: `cancelAll` stops every live unit, leaves the live set
empty, and resets the start cursor to `0`; because the output clock is
non-negative, the next chunk enqueued after cancellation is scheduled to start
exactly at the current output clock, never at a stale future timestamp. -/
theorem C4_cancel_amended (s : SessionState) (clock dur : ℚ)
    (hclock : 0 ≤ clock) :
    (cancelAll s).2 = s.sources ∧
    (cancelAll s).1.sources = [] ∧
    (cancelAll s).1.nextStartTime = 0 ∧
    (enqueueAudio clock dur (cancelAll s).1).2 = clock := by
  refine ⟨rfl, rfl, rfl, ?_⟩
  simp [enqueueAudio, cancelAll, max_eq_right hclock]

/-- Witness for the amended C4: cancelling the concrete scheduled state and
then enqueueing a one-second chunk at output clock 5 schedules it at 5. -/
theorem C4_cancel_witness :
    (0 : ℚ) ≤ 5 ∧
    (cancelAll stateScheduled).1.sources = [] ∧
    (enqueueAudio 5 1 (cancelAll stateScheduled).1).2 = 5 :=
  ⟨by norm_num,
    (C4_cancel_amended stateScheduled 5 1 (by norm_num)).2.1,
    (C4_cancel_amended stateScheduled 5 1 (by norm_num)).2.2.2⟩

/-! Claim C5: acknowledgement of tool invocations. -/

/-- The inbound message carrying only tool invocations. -/
def toolMsg (fcs : List FunctionCall) : LiveMsg := ⟨fcs, none, none, false, none, false⟩

/-- The acknowledgements produced by the tool-call loop are exactly one ack,
correlated by invocation id, for each call whose name is the declared tool
name, in arrival order. -/
lemma processToolCalls_acks (s : SessionState) (fcs : List FunctionCall) :
    (processToolCalls s fcs).2 =
      (fcs.filter (fun fc => fc.name = "updateVisualFeedback")).map
        (fun fc => (⟨fc.id, fc.name⟩ : ToolAck)) := by
  induction fcs generalizing s with
  | nil => rfl
  | cons fc rest ih =>
    by_cases hn : fc.name = "updateVisualFeedback" <;>
      simp [processToolCalls, processFunctionCall, hn, List.filter_cons, ih]

/-- Concrete message carrying a single invocation of an undeclared tool
name. -/
def undeclaredToolMsg : LiveMsg :=
  toolMsg [⟨"logMetric", "call-7", "", ""⟩]

/-- Counterexample to C5 as stated: a received invocation whose tool name is
not the declared `updateVisualFeedback` produces zero acknowledgements, not
exactly one. -/
theorem C5_ack_counterexample :
    undeclaredToolMsg.toolCalls.length = 1 ∧
    (onmessage 0 undeclaredToolMsg exOpen).2 = [] := ⟨rfl, rfl⟩

/-- Claim C5 amended: for every inbound tool-call message, the handler sends
exactly one acknowledgement — correlated by the event's invocation id — for
each received invocation whose name is the declared tool `updateVisualFeedback`
(regardless of payload contents, since the payload is never validated), and no
acknowledgement for invocations with any other name; cue publication precedes
the acknowledgement but cannot suppress it in this model. -/
theorem C5_ack_amended (clock : ℚ) (s : SessionState) (fcs : List FunctionCall)
    (hopen : s.audioCtxOpen = true) :
    (onmessage clock (toolMsg fcs) s).2 =
      (fcs.filter (fun fc => fc.name = "updateVisualFeedback")).map
        (fun fc => (⟨fc.id, fc.name⟩ : ToolAck)) := by
  simp only [onmessage, hopen, Bool.true_eq_false, if_false, toolMsg]
  exact processToolCalls_acks s fcs

/-- Concrete tool-call list: one well-formed invocation of the declared tool,
one invocation of it with a garbage payload, and one invocation of an
undeclared tool. -/
def exToolCalls : List FunctionCall :=
  [⟨"updateVisualFeedback", "id-1", "Good eye contact", "positive"⟩,
   ⟨"updateVisualFeedback", "id-2", "", "nonsense"⟩,
   ⟨"logMetric", "id-3", "", ""⟩]

/-- Witness for the amended C5: the declared-tool invocations `id-1` and
`id-2` each get exactly one correlated acknowledgement and the undeclared
`id-3` gets none. -/
theorem C5_ack_witness :
    exOpen.audioCtxOpen = true ∧
    (onmessage 0 (toolMsg exToolCalls) exOpen).2 =
      (exToolCalls.filter (fun fc => fc.name = "updateVisualFeedback")).map
        (fun fc => (⟨fc.id, fc.name⟩ : ToolAck)) :=
  ⟨rfl, C5_ack_amended 0 exOpen exToolCalls rfl⟩

/-! Claim C6: the frame-capture tick and in-flight frames. -/

/-- Concrete capture environment: every handle present, a live video feed, and
one previously captured frame still being compressed/sent. -/
def envBusy : CaptureEnv :=
  ⟨true, true, true, true, 1280, 1⟩

/-- Counterexample to C6 as stated: with the previous frame's compression/send
still in flight, the tick of either variant still captures a new frame — it
does not skip. -/
theorem C6_frame_counterexample :
    envBusy.framesInFlight = 1 ∧
    frameTickCaptures envBusy = true ∧
    frameTickCapturesAlt envBusy = true := ⟨rfl, rfl, rfl⟩

/-- Claim C6 amended: the frame-capture tick decides whether to capture solely
from the availability of the video, canvas and session handles (plus, in the
alt variant, a non-zero video width); the decision is independent of how many
previously captured frames are still in flight, so nothing bounds the number
of outbound frames concurrently buffered or in flight. -/
theorem C6_frame_amended (e : CaptureEnv) (k : Nat) :
    frameTickCaptures { e with framesInFlight := k } = frameTickCaptures e ∧
    frameTickCapturesAlt { e with framesInFlight := k } = frameTickCapturesAlt e :=
  ⟨rfl, rfl⟩

/-! Claim C8: idempotence and safety of teardown. -/

/-- Concrete fully running session: open handles, live timers, a pending cue
expiry and one live playback unit. -/
def stateRunning : SessionState :=
  { exOpen with sessionOpen := true, frameInterval := some 3,
                timerInterval := some 4, feedbackTimeout := some 7,
                nextTimerId := 8, sources := [⟨0, 1⟩],
                isReady := true, isListening := true }

/-- Counterexample to C8 as stated: because `cleanup` never nulls
`feedbackTimeoutRef.current`, a second teardown re-issues the cue-expiry
timeout cancellation for the same timer id — a timer release is performed a
second time, which the claim forbids. -/
theorem C8_cleanup_counterexample :
    (cleanup (cleanup stateRunning).1).2 = [CleanupAction.clearFeedbackTimeout 7] ∧
    (cleanup (cleanup stateRunning).1).2 ≠ [] := by
  refine ⟨rfl, ?_⟩
  intro h
  simp [cleanup, stateRunning, exOpen, initialState] at h

/-- Claim C8 amended: teardown is idempotent at the state level — running it
twice yields the same state as running it once — and a second run releases no
session handle, audio context, frame timer, elapsed timer or playback source
a second time; the sole re-issued action is the cancellation of the cue-expiry
timeout, whose ref the source never nulls (harmless, as timeout cancellation
is idempotent).  On a never-started session, teardown performs no release at
all. -/
theorem C8_cleanup_amended (s : SessionState) :
    (cleanup (cleanup s).1).1 = (cleanup s).1 ∧
    ((cleanup (cleanup s).1).2 =
      match s.feedbackTimeout with
      | some i => [CleanupAction.clearFeedbackTimeout i]
      | none => []) ∧
    (cleanup initialState).2 = [] := by
  refine ⟨rfl, ?_, rfl⟩
  cases h : s.feedbackTimeout <;> simp [cleanup, h]

/-! Claim C9: the result of finishing a session. -/

/-- Formulation of the spec's words for left-padding with zeros to two
digits. -/
def padTwoZeros (s : String) : String :=
  if s.length = 0 then "00" else if s.length = 1 then "0" ++ s else s

/-- Formulation of the spec's words for the returned duration: floor(n/60)
left-padded with zeros to two digits, a colon, then n mod 60 left-padded with
zeros to two digits. -/
def specDurationMMSS (n : Nat) : String :=
  padTwoZeros (Nat.repr (n / 60)) ++ ":" ++ padTwoZeros (Nat.repr (n % 60))

/-- Padding with the JavaScript `padStart(2, '0')` model agrees with the
spec's left-padded-to-two-digits formulation. -/
lemma padStart_two (s : String) : padStart s 2 '0' = padTwoZeros s := by
  rcases hl : s.length with _ | n
  · have hs : s = "" := by
      cases s with
      | mk d =>
        simp only [String.length] at hl
        simp [List.length_eq_zero.mp hl]
    subst hs
    rfl
  · rcases n with _ | m
    · have h1 : 2 - s.length = 1 := by rw [hl]
      simp only [padStart, padTwoZeros, hl, h1]
      rfl
    · have h0 : (2 : Nat) - (m + 1 + 1) = 0 := by omega
      have he : String.mk [] ++ s = s := by
        cases s with
        | mk d => apply String.ext; simp
      simp [padStart, padTwoZeros, hl, h0, he]

/-- Claim C9: `handleFinish` returns the accumulated ordered turn history
paired with the elapsed seconds formatted exactly as the spec's MM:SS
formula — floor(n/60) zero-padded to two digits, a colon, n mod 60 zero-padded
to two digits. -/
theorem C9_finish_format (s : SessionState) :
    handleFinish s = (s.currentTranscript, specDurationMMSS s.secondsElapsed) := by
  simp only [handleFinish, formatTime, specDurationMMSS, padStart_two]

/-! Claim C10: a message carrying both transcription kinds. -/

/-- The inbound message carrying both an agent-speech delta and a user-speech
delta. -/
def bothDeltasMsg (a b : String) : LiveMsg := ⟨[], some a, some b, false, none, false⟩

/-- Claim C10: when a single message carries both an agent (output) delta and
a user (input) delta, only the agent's delta is appended to its buffer and the
user's delta is silently discarded, in both source variants, because the two
transcription kinds are tested in an exclusive if/else-if order. -/
theorem C10_exclusive_transcription (clock : ℚ) (s : SessionState)
    (a b : String) (hopen : s.audioCtxOpen = true) :
    (onmessage clock (bothDeltasMsg a b) s).1.transcriptionModel =
        s.transcriptionModel ++ a ∧
    (onmessage clock (bothDeltasMsg a b) s).1.transcriptionUser =
        s.transcriptionUser ∧
    (onmessageAlt clock (bothDeltasMsg a b) s).1.transcriptionModel =
        s.transcriptionModel ++ a ∧
    (onmessageAlt clock (bothDeltasMsg a b) s).1.transcriptionUser =
        s.transcriptionUser := by
  refine ⟨?_, ?_, ?_, ?_⟩ <;>
    simp [onmessage, onmessageAlt, hopen, bothDeltasMsg, processToolCalls,
      processTranscription]

/-- Witness for C10: at the concrete open state, a message carrying the agent
delta "Okay." and the user delta "yes" appends only "Okay." to the agent
buffer and leaves the user buffer empty. -/
theorem C10_exclusive_witness :
    exOpen.audioCtxOpen = true ∧
    (onmessage 0 (bothDeltasMsg "Okay." "yes") exOpen).1.transcriptionModel =
      exOpen.transcriptionModel ++ "Okay." ∧
    (onmessage 0 (bothDeltasMsg "Okay." "yes") exOpen).1.transcriptionUser =
      exOpen.transcriptionUser :=
  ⟨rfl, (C10_exclusive_transcription 0 exOpen "Okay." "yes" rfl).1,
    (C10_exclusive_transcription 0 exOpen "Okay." "yes" rfl).2.1⟩

end Protocall
